import Mathlib

/-!
# Verification of `code/submitGears/submitFmriprep.py`

A shallow embedding of the spreadsheet-to-job-submission translator
`submitFmriprep`.  The script reads a fixed-layout CSV (modelled as a `Sheet`,
a total cell function together with the frame dimensions), extracts header
metadata from fixed cells, builds a per-row config map and input map, and for
every data row (rows 7 onward) submits one job through an external SDK client
(modelled as an `Env` of abstract API operations returning `Except`).

Every interaction with the external client is recorded as an `Event`, so the
theorems can speak about which lookups, file resolutions and `gear.run`
submissions the script performs and in which order.  An uncaught Python
exception is modelled as the `Option String` error component of the result:
the script has no top-level handler, so such an exception aborts the run.
-/

set_option maxHeartbeats 1000000

namespace SubmitFmriprep

/-- A spreadsheet cell: `some s` for a string value, `none` for a missing
(NaN) cell. -/
abbrev Cell := Option String

/-- Python's rendering of a cell value inside an f-string: a missing cell is
the float `nan`, which prints as `"nan"`. -/
def cellStr (c : Cell) : String :=
  match c with
  | some s => s
  | none => "nan"

/-- The CSV as read by `pandas.read_csv(csvFile, header=None)`: a rectangular
frame of cells addressed by zero-based (row, column) coordinates. -/
structure Sheet where
  nRows : Nat
  nCols : Nat
  cell : Nat → Nat → Cell

/-- Python `str.split(sep)` for a one-character separator, on the character
list of the string.  `''.split(',') = ['']`, and the result is never empty. -/
def splitCharList (sep : Char) : List Char → List (List Char)
  | [] => [[]]
  | c :: cs =>
    if c = sep then [] :: splitCharList sep cs
    else
      match splitCharList sep cs with
      | [] => [[c]]
      | l :: ls => (c :: l) :: ls

/-- Python `str.split(sep)` for a one-character separator. -/
def splitChar (sep : Char) (s : String) : List String :=
  (splitCharList sep s.toList).map String.mk

/-- Python `str.replace("'", "")`: delete every apostrophe (character 39). -/
def removeQuotes (s : String) : String :=
  String.mk (s.toList.filter (fun c => c.toNat ≠ 39))

/-- Python `str.lower()` (the script only ever lowers ASCII strings). -/
def pyLower (s : String) : String :=
  String.mk (s.toList.map Char.toLower)

/-- Lines 8-9: `str2bool(v)` returns `str(v).lower() in ("yes","true","t","1")`. -/
def str2bool (v : String) : Bool :=
  ["yes", "true", "t", "1"].contains (pyLower v)

/-- A file object returned by `project.get_file`; its identity is chosen by
the environment. -/
structure FileRef where
  fid : String
  deriving DecidableEq, Repr

/-- A Python value held in one of the script's dictionaries: a string, a
boolean produced by `str2bool`, a file object, or the float NaN of an empty
cell. -/
inductive Value where
  | str : String → Value
  | bool : Bool → Value
  | file : FileRef → Value
  | na : Value
  deriving DecidableEq, Repr

/-- The Python value of a literal spreadsheet cell. -/
def cellVal (c : Cell) : Value :=
  match c with
  | some s => .str s
  | none => .na

/-- A Python dict with insertion-order semantics, keyed by cell values
(`spreadsheet.loc[1, input_index]`, which can itself be NaN). -/
abbrev Dict := List (Cell × Value)

/-- `d[k] = v`: replace in place if the key is present, else append. -/
def dinsert : Dict → Cell → Value → Dict
  | [], k, v => [(k, v)]
  | (k', v') :: d, k, v => if k' = k then (k, v) :: d else (k', v') :: dinsert d k v

/-- `d[k]` / `k in d.keys()`: first (unique) binding of the key. -/
def dfind : Dict → Cell → Option Value
  | [], _ => none
  | (k', v') :: d, k => if k' = k then some v' else dfind d k

/-- The coercion pattern at lines 23-25, 59-60 and 66-67: a value is converted
by `str2bool` iff it equals one of the four exact strings `'true'`, `'false'`,
`'True'`, `'False'`; every other value is left unchanged. -/
def coerceValue : Value → Value
  | .str s =>
    if s = "true" ∨ s = "false" ∨ s = "True" ∨ s = "False" then .bool (str2bool s)
    else .str s
  | v => v

/-- Lines 20-21: `cell.split('{')[1].split('}')[0].split(',')`, with the
apostrophes additionally removed for the key cell.  A NaN cell has no `split`
attribute and a cell without a brace makes the `[1]` subscript fail; either
raises, which aborts the script. -/
def parseBraceList (c : Cell) (stripQuotes : Bool) : Except String (List String) :=
  match c with
  | none => .error "AttributeError: float object has no attribute split"
  | some s =>
    match (splitChar (Char.ofNat 123) s).get? 1 with
    | none => .error "IndexError: list index out of range"
    | some t =>
      let u := (splitChar (Char.ofNat 125) t).headD ""
      let u := if stripQuotes then removeQuotes u else u
      .ok (splitChar (Char.ofNat 44) u)

/-- Lines 22-25: `defaultVals = dict(zip(configKeys_list, configVals_list))`
followed by the in-place boolean coercion of every stored value. -/
def buildDefaults (keys vals : List String) : Dict :=
  ((keys.zip vals).foldl (fun d kv => dinsert d (some kv.1) (.str kv.2)) []).map
    (fun kv => (kv.1, coerceValue kv.2))

/-- A session resource returned by `fw.lookup`: its identity together with the
labels of the analyses already attached to it. -/
structure Session where
  sid : String
  analyses : List String
  deriving DecidableEq, Repr

/-- One `gear.run` invocation: the loaded gear and the keyword arguments of
line 84-85. -/
structure RunCall where
  gear : String
  analysis_label : Cell
  config : Dict
  inputs : Dict
  destination : Session
  deriving DecidableEq, Repr

/-- One observable interaction with the external platform client. -/
inductive Event where
  | lookupGear (path : String)
  | lookupProject (path : String)
  | lookupSession (path : String)
  | getFile (project : String) (name : Cell)
  | runCall (c : RunCall)
  deriving DecidableEq, Repr

/-- The external platform client: each operation may raise (`.error`). -/
structure Env where
  lookupGear : String → Except String String
  lookupProject : String → Except String String
  lookupSession : String → Except String Session
  getFile : String → Cell → Except String FileRef
  run : RunCall → Except String String

/-- The script's observable state: the recorded API events and the two
accumulator lists `analysis_ids` and `fails`. -/
structure St where
  events : List Event
  analysis_ids : List String
  fails : List Session
  deriving DecidableEq, Repr

/-- The cells of one row, in column order. -/
def rowCells (s : Sheet) (r : Nat) : List Cell :=
  (List.range s.nCols).map (fun c => s.cell r c)

/-- Lines 28-30: the non-null cells of row 1 with the first one dropped
(`spreadsheet.loc[1,:][spreadsheet.loc[1,:].notnull()][1:]`). -/
def inputNames (s : Sheet) : List String :=
  ((rowCells s 1).filterMap id).drop 1

/-- Python `list.index`: the first index of the element, or an error if it is
absent.  Modelled as an `Option`. -/
def pyIndex (x : String) : List String → Option Nat
  | [] => none
  | y :: ys => if y = x then some 0 else (pyIndex x ys).map (· + 1)

/-- Line 50: the session path is hardcoded to the `mtSinaiFlicker` project,
independently of the project label read from cell (0,1). -/
def sessionPath (s : Sheet) (r : Nat) : String :=
  "gkaguirrelab/mtSinaiFlicker/" ++ cellStr (s.cell r 0)

/-- Lines 53-67: the inner loop over the input columns of one data row `r`,
building `project_inputs` and `project_configs`.  `project.get_file` (line 58)
is an API call outside any handler: if it raises, the whole run aborts, which
is signalled by the `Option String` component. -/
def colLoop (s : Sheet) (env : Env) (project : String) (defaults : Dict) (r : Nat) :
    List Nat → Dict → Dict → List Event → Dict × Dict × List Event × Option String
  | [], inp, cfg, evs => (inp, cfg, evs, none)
  | c :: cs, inp, cfg, evs =>
    let name := s.cell 1 c
    if s.cell 4 c = some "project" then
      match dfind defaults name with
      | some dv =>
        colLoop s env project defaults r cs (dinsert inp name (coerceValue dv)) cfg evs
      | none =>
        let evs' := evs ++ [Event.getFile project (s.cell r c)]
        match env.getFile project (s.cell r c) with
        | .error e => (inp, cfg, evs', some e)
        | .ok f =>
          colLoop s env project defaults r cs
            (dinsert inp name (coerceValue (.file f))) cfg evs'
    else if s.cell 4 c = some "config" then
      let v :=
        match dfind defaults name with
        | some dv => dv
        | none => cellVal (s.cell r c)
      colLoop s env project defaults r cs inp (dinsert cfg name (coerceValue v)) evs
    else
      colLoop s env project defaults r cs inp cfg evs

/-- Lines 47-91: the outer loop over the data rows.  For each row: look up the
session (line 50, outside any handler — a raise aborts the run), build the two
dictionaries, read the analysis label from the tag column, skip the row if the
session already carries an analysis with that label, and otherwise attempt
`gear.run` inside the only try/except of the script. -/
def rowLoop (s : Sheet) (env : Env) (gear project : String) (defaults : Dict)
    (cols : List Nat) (tagIdx : Nat) :
    List Nat → St → St × Option String
  | [], st => (st, none)
  | r :: rs, st =>
    let spath := sessionPath s r
    let st1 : St := { st with events := st.events ++ [Event.lookupSession spath] }
    match env.lookupSession spath with
    | .error e => (st1, some e)
    | .ok session =>
      match colLoop s env project defaults r cols [] [] st1.events with
      | (_, _, evs, some e) => ({ st1 with events := evs }, some e)
      | (inp, cfg, evs, none) =>
        let st2 : St := { st1 with events := evs }
        let label := s.cell r (tagIdx + 1)
        if session.analyses.any (fun l => decide (label = some l)) then
          rowLoop s env gear project defaults cols tagIdx rs st2
        else
          let call : RunCall :=
            { gear := gear, analysis_label := label, config := cfg, inputs := inp,
              destination := session }
          let st3 : St := { st2 with events := st2.events ++ [Event.runCall call] }
          match env.run call with
          | .ok jid =>
            rowLoop s env gear project defaults cols tagIdx rs
              { st3 with analysis_ids := st3.analysis_ids ++ [jid] }
          | .error _ =>
            rowLoop s env gear project defaults cols tagIdx rs
              { st3 with fails := st3.fails ++ [session] }

/-- The whole `submitFmriprep(csvFile, overwrite_existing='never')` function,
applied to the already-parsed CSV.  Header parsing and the
`analysisSubmissionTag` index lookup happen before any API call; the gear and
project lookups happen once before the row loop; `overwrite_existing` is never
read by any live statement of the function. -/
def submitFmriprep (sheet : Sheet) (overwrite_existing : String) (env : Env) :
    St × Option String :=
  let projectLabel := sheet.cell 0 1
  let gearName := sheet.cell 0 4
  match parseBraceList (sheet.cell 0 8) true with
  | .error e => (⟨[], [], []⟩, some e)
  | .ok configKeys_list =>
    match parseBraceList (sheet.cell 0 10) false with
    | .error e => (⟨[], [], []⟩, some e)
    | .ok configVals_list =>
      let defaultVals := buildDefaults configKeys_list configVals_list
      let inputs := inputNames sheet
      match pyIndex "analysisSubmissionTag" inputs with
      | none => (⟨[], [], []⟩, some "ValueError: analysisSubmissionTag is not in list")
      | some submissionTagIndex =>
        let input_length := inputs.length
        let gearPath := "gears/" ++ cellStr gearName
        let evs1 := [Event.lookupGear gearPath]
        match env.lookupGear gearPath with
        | .error e => (⟨evs1, [], []⟩, some e)
        | .ok gear =>
          let projPath := "gkaguirrelab/" ++ cellStr projectLabel
          let evs2 := evs1 ++ [Event.lookupProject projPath]
          match env.lookupProject projPath with
          | .error e => (⟨evs2, [], []⟩, some e)
          | .ok project =>
            rowLoop sheet env gear project defaultVals (List.range' 1 input_length)
              submissionTagIndex (List.range' 7 (sheet.nRows - 7)) ⟨evs2, [], []⟩

/-- The `gear.run` calls recorded in a trace. -/
def runCalls (evs : List Event) : List RunCall :=
  evs.filterMap (fun e =>
    match e with
    | .runCall c => some c
    | _ => none)

/-- The session-lookup paths recorded in a trace. -/
def sessionLookups (evs : List Event) : List String :=
  evs.filterMap (fun e =>
    match e with
    | .lookupSession p => some p
    | _ => none)

/-! ## Pure per-row characterisation

`colStepP` is the effect of one iteration of the inner column loop on the pair
`(project_inputs, project_configs)`, with `project.get_file` replaced by a pure
resolution function (valid whenever the environment's `getFile` never raises).
The master lemmas below show that the imperative loops compute exactly the
fold of `colStepP` and the per-row outcome functions of a `Ctx`. -/

/-- One column's effect on `(project_inputs, project_configs)` for data row
`r`, assuming `get_file` resolves via `fileFn`. -/
def colStepP (s : Sheet) (defaults : Dict) (fileFn : String → Cell → FileRef)
    (project : String) (r : Nat) (acc : Dict × Dict) (c : Nat) : Dict × Dict :=
  let name := s.cell 1 c
  if s.cell 4 c = some "project" then
    match dfind defaults name with
    | some dv => (dinsert acc.1 name (coerceValue dv), acc.2)
    | none => (dinsert acc.1 name (coerceValue (.file (fileFn project (s.cell r c)))), acc.2)
  else if s.cell 4 c = some "config" then
    let v :=
      match dfind defaults name with
      | some dv => dv
      | none => cellVal (s.cell r c)
    (acc.1, dinsert acc.2 name (coerceValue v))
  else acc

/-- The `get_file` calls issued while processing the columns of data row `r`:
one per project-role column whose name is not a defaults key. -/
def rowFileEvents (s : Sheet) (defaults : Dict) (project : String) (r : Nat)
    (cols : List Nat) : List Event :=
  cols.filterMap (fun c =>
    if s.cell 4 c = some "project" ∧ dfind defaults (s.cell 1 c) = none then
      some (Event.getFile project (s.cell r c))
    else none)

/-- All run-invariant data of one execution: the sheet, the environment, the
resolved gear and project, the header-derived defaults and column plan, and
the session returned for each row's fixed path. -/
structure Ctx where
  s : Sheet
  env : Env
  gear : String
  project : String
  defaults : Dict
  fileFn : String → Cell → FileRef
  cols : List Nat
  tagIdx : Nat
  sess : Nat → Session

namespace Ctx

/-- The `(project_inputs, project_configs)` pair built for data row `r`. -/
def dicts (C : Ctx) (r : Nat) : Dict × Dict :=
  C.cols.foldl (colStepP C.s C.defaults C.fileFn C.project r) ([], [])

/-- The `gear.run` invocation issued for data row `r`. -/
def call (C : Ctx) (r : Nat) : RunCall :=
  { gear := C.gear, analysis_label := C.s.cell r (C.tagIdx + 1),
    config := (C.dicts r).2, inputs := (C.dicts r).1, destination := C.sess r }

/-- Whether the duplicate guard fires for data row `r`: some analysis already
on the session carries the row's computed label. -/
def dup (C : Ctx) (r : Nat) : Bool :=
  (C.sess r).analyses.any (fun l => decide (C.s.cell r (C.tagIdx + 1) = some l))

/-- The API events generated while processing data row `r`. -/
def rowEvents (C : Ctx) (r : Nat) : List Event :=
  Event.lookupSession (sessionPath C.s r) ::
    (rowFileEvents C.s C.defaults C.project r C.cols ++
      (if C.dup r then [] else [Event.runCall (C.call r)]))

/-- The job id appended to `analysis_ids` by data row `r`, if any. -/
def jobId (C : Ctx) (r : Nat) : Option String :=
  if C.dup r then none
  else
    match C.env.run (C.call r) with
    | .ok jid => some jid
    | .error _ => none

/-- The session appended to `fails` by data row `r`, if any. -/
def failure (C : Ctx) (r : Nat) : Option Session :=
  if C.dup r then none
  else
    match C.env.run (C.call r) with
    | .ok _ => none
    | .error _ => some (C.sess r)

end Ctx

/-- The inner column loop computes the fold of `colStepP`, records exactly the
`get_file` events of the row, and never raises, provided `get_file` itself
never raises. -/
theorem colLoop_eq (s : Sheet) (env : Env) (project : String) (defaults : Dict)
    (r : Nat) (fileFn : String → Cell → FileRef)
    (Hfile : ∀ p c, env.getFile p c = .ok (fileFn p c)) :
    ∀ (cols : List Nat) (inp cfg : Dict) (evs : List Event),
      colLoop s env project defaults r cols inp cfg evs =
        ((cols.foldl (colStepP s defaults fileFn project r) (inp, cfg)).1,
         (cols.foldl (colStepP s defaults fileFn project r) (inp, cfg)).2,
         evs ++ rowFileEvents s defaults project r cols, none) := by
  intro cols
  induction cols with
  | nil => intro inp cfg evs; simp [colLoop, rowFileEvents]
  | cons c cs ih =>
    intro inp cfg evs
    by_cases hproj : s.cell 4 c = some "project"
    · cases hdf : dfind defaults (s.cell 1 c) with
      | some dv =>
        simp [colLoop, hproj, hdf, ih, colStepP, rowFileEvents]
      | none =>
        simp [colLoop, hproj, hdf, Hfile, ih, colStepP, rowFileEvents]
    · by_cases hcfg : s.cell 4 c = some "config"
      · simp [colLoop, hproj, hcfg, ih, colStepP, rowFileEvents]
      · simp [colLoop, hproj, hcfg, ih, colStepP, rowFileEvents]

/-- Master lemma: when the session lookups and file resolutions never raise,
the row loop processes every row, records per row the events `rowEvents`, and
accumulates exactly the per-row job ids and failures. -/
theorem rowLoop_eq (C : Ctx)
    (Hsess : ∀ r, C.env.lookupSession (sessionPath C.s r) = .ok (C.sess r))
    (Hfile : ∀ p c, C.env.getFile p c = .ok (C.fileFn p c)) :
    ∀ (rs : List Nat) (st : St),
      rowLoop C.s C.env C.gear C.project C.defaults C.cols C.tagIdx rs st =
        ({ events := st.events ++ rs.flatMap C.rowEvents,
           analysis_ids := st.analysis_ids ++ rs.filterMap C.jobId,
           fails := st.fails ++ rs.filterMap C.failure }, none) := by
  intro rs
  induction rs with
  | nil => intro st; simp [rowLoop]
  | cons r rs ih =>
    intro st
    have hcall : C.call r =
        { gear := C.gear, analysis_label := C.s.cell r (C.tagIdx + 1),
          config := (C.cols.foldl (colStepP C.s C.defaults C.fileFn C.project r) ([], [])).2,
          inputs := (C.cols.foldl (colStepP C.s C.defaults C.fileFn C.project r) ([], [])).1,
          destination := C.sess r } := rfl
    have hdupe : C.dup r =
        (C.sess r).analyses.any (fun l => decide (C.s.cell r (C.tagIdx + 1) = some l)) := rfl
    cases hdup : C.dup r with
    | true =>
      rw [hdupe] at hdup
      simp only [rowLoop, Hsess r,
        colLoop_eq C.s C.env C.project C.defaults r C.fileFn Hfile, hdup, ih,
        Ctx.rowEvents, Ctx.jobId, Ctx.failure, hdupe, List.flatMap_cons, List.filterMap_cons]
      simp [List.append_assoc]
    | false =>
      rw [hdupe] at hdup
      cases hrun : C.env.run (C.call r) with
      | ok jid =>
        rw [hcall] at hrun
        simp only [rowLoop, Hsess r,
          colLoop_eq C.s C.env C.project C.defaults r C.fileFn Hfile, hdup, hrun, ih,
          Ctx.rowEvents, Ctx.jobId, Ctx.failure, hdupe, hcall, List.flatMap_cons,
          List.filterMap_cons]
        simp [List.append_assoc]
      | error e =>
        rw [hcall] at hrun
        simp only [rowLoop, Hsess r,
          colLoop_eq C.s C.env C.project C.defaults r C.fileFn Hfile, hdup, hrun, ih,
          Ctx.rowEvents, Ctx.jobId, Ctx.failure, hdupe, hcall, List.flatMap_cons,
          List.filterMap_cons]
        simp [List.append_assoc]

/-- Full-run characterisation: with well-formed header cells, a present tag
column, and an environment whose lookups and file resolutions never raise,
`submitFmriprep` performs the gear lookup, the project lookup, and then the
per-row events, ids and failures of the row loop, and terminates normally. -/
theorem submitFmriprep_eq (C : Ctx) (keys vals : List String) (o : String)
    (hk : parseBraceList (C.s.cell 0 8) true = .ok keys)
    (hv : parseBraceList (C.s.cell 0 10) false = .ok vals)
    (hd : C.defaults = buildDefaults keys vals)
    (ht : pyIndex "analysisSubmissionTag" (inputNames C.s) = some C.tagIdx)
    (hcols : C.cols = List.range' 1 (inputNames C.s).length)
    (hg : C.env.lookupGear ("gears/" ++ cellStr (C.s.cell 0 4)) = .ok C.gear)
    (hp : C.env.lookupProject ("gkaguirrelab/" ++ cellStr (C.s.cell 0 1)) = .ok C.project)
    (Hsess : ∀ r, C.env.lookupSession (sessionPath C.s r) = .ok (C.sess r))
    (Hfile : ∀ p c, C.env.getFile p c = .ok (C.fileFn p c)) :
    submitFmriprep C.s o C.env =
      ({ events := Event.lookupGear ("gears/" ++ cellStr (C.s.cell 0 4)) ::
           Event.lookupProject ("gkaguirrelab/" ++ cellStr (C.s.cell 0 1)) ::
           (List.range' 7 (C.s.nRows - 7)).flatMap C.rowEvents,
         analysis_ids := (List.range' 7 (C.s.nRows - 7)).filterMap C.jobId,
         fails := (List.range' 7 (C.s.nRows - 7)).filterMap C.failure }, none) := by
  simp only [submitFmriprep, hk, hv, ht, hg, hp, ← hd, ← hcols]
  rw [rowLoop_eq C Hsess Hfile]
  simp

/-- `runCalls` distributes over list append. -/
theorem runCalls_append (a b : List Event) :
    runCalls (a ++ b) = runCalls a ++ runCalls b := by
  simp [runCalls]

/-- `sessionLookups` distributes over list append. -/
theorem sessionLookups_append (a b : List Event) :
    sessionLookups (a ++ b) = sessionLookups a ++ sessionLookups b := by
  simp [sessionLookups]

/-- A row's `get_file` events contain no `gear.run` call. -/
theorem runCalls_rowFileEvents (s : Sheet) (defaults : Dict) (project : String)
    (r : Nat) (cols : List Nat) :
    runCalls (rowFileEvents s defaults project r cols) = [] := by
  rw [runCalls, List.filterMap_eq_nil_iff]
  intro e he
  rw [rowFileEvents, List.mem_filterMap] at he
  obtain ⟨c, -, hc⟩ := he
  by_cases h : s.cell 4 c = some "project" ∧ dfind defaults (s.cell 1 c) = none
  · rw [if_pos h] at hc
    cases hc
    rfl
  · rw [if_neg h] at hc
    cases hc

/-- A row's `get_file` events contain no session lookup. -/
theorem sessionLookups_rowFileEvents (s : Sheet) (defaults : Dict) (project : String)
    (r : Nat) (cols : List Nat) :
    sessionLookups (rowFileEvents s defaults project r cols) = [] := by
  rw [sessionLookups, List.filterMap_eq_nil_iff]
  intro e he
  rw [rowFileEvents, List.mem_filterMap] at he
  obtain ⟨c, -, hc⟩ := he
  by_cases h : s.cell 4 c = some "project" ∧ dfind defaults (s.cell 1 c) = none
  · rw [if_pos h] at hc
    cases hc
    rfl
  · rw [if_neg h] at hc
    cases hc

/-- The `gear.run` calls of one row: none when the duplicate guard fires, and
exactly the row's call otherwise. -/
theorem runCalls_rowEvents (C : Ctx) (r : Nat) :
    runCalls (C.rowEvents r) = if C.dup r then [] else [C.call r] := by
  have hfe := runCalls_rowFileEvents C.s C.defaults C.project r C.cols
  rw [runCalls, List.filterMap_eq_nil_iff] at hfe
  cases h : C.dup r <;> simp [Ctx.rowEvents, h, runCalls] <;> exact hfe

/-- The session lookups of one row: exactly the row's fixed session path. -/
theorem sessionLookups_rowEvents (C : Ctx) (r : Nat) :
    sessionLookups (C.rowEvents r) = [sessionPath C.s r] := by
  have hfe := sessionLookups_rowFileEvents C.s C.defaults C.project r C.cols
  rw [sessionLookups, List.filterMap_eq_nil_iff] at hfe
  cases h : C.dup r <;> simp [Ctx.rowEvents, h, sessionLookups] <;> exact hfe

/-- The `gear.run` calls of a whole run's row events: one call per
non-duplicate row, in row order. -/
theorem runCalls_flatMap (C : Ctx) (rs : List Nat) :
    runCalls (rs.flatMap C.rowEvents) =
      (rs.filter (fun r => !C.dup r)).map C.call := by
  induction rs with
  | nil => simp [runCalls]
  | cons r rs ih =>
    rw [List.flatMap_cons, runCalls_append, ih, runCalls_rowEvents]
    cases h : C.dup r <;> simp [h, List.filter_cons]

/-- The session lookups of a whole run's row events: one per data row. -/
theorem sessionLookups_flatMap (C : Ctx) (rs : List Nat) :
    sessionLookups (rs.flatMap C.rowEvents) = rs.map (sessionPath C.s) := by
  induction rs with
  | nil => simp [sessionLookups]
  | cons r rs ih =>
    rw [List.flatMap_cons, sessionLookups_append, ih, sessionLookups_rowEvents]
    simp

/-! ## Defaults-vs-literal resolution, in the words of the specification

`claimInputs` and `claimConfig` follow the specification text: over the
project-role (resp. config-role) columns, in column order, bind the column's
name to the default value whenever that name is a key of the defaults mapping,
and to the project file reference (resp. the literal cell value) otherwise,
the script's boolean coercion being applied to the resolved value. -/

/-- Resolution of one project-role column. -/
def projStep (s : Sheet) (defaults : Dict) (fileFn : String → Cell → FileRef)
    (project : String) (r : Nat) (d : Dict) (c : Nat) : Dict :=
  dinsert d (s.cell 1 c)
    (match dfind defaults (s.cell 1 c) with
     | some dv => coerceValue dv
     | none => coerceValue (.file (fileFn project (s.cell r c))))

/-- Resolution of one config-role column. -/
def cfgStep (s : Sheet) (defaults : Dict) (r : Nat) (d : Dict) (c : Nat) : Dict :=
  dinsert d (s.cell 1 c)
    (coerceValue
      (match dfind defaults (s.cell 1 c) with
       | some dv => dv
       | none => cellVal (s.cell r c)))

/-- The input map of a data row, as the specification describes it. -/
def claimInputs (s : Sheet) (defaults : Dict) (fileFn : String → Cell → FileRef)
    (project : String) (cols : List Nat) (r : Nat) : Dict :=
  (cols.filter (fun c => decide (s.cell 4 c = some "project"))).foldl
    (projStep s defaults fileFn project r) []

/-- The config map of a data row, as the specification describes it. -/
def claimConfig (s : Sheet) (defaults : Dict) (cols : List Nat) (r : Nat) : Dict :=
  (cols.filter (fun c => decide (s.cell 4 c = some "config"))).foldl
    (cfgStep s defaults r) []

/-- The interleaved single-pass fold of the code equals the two role-filtered
folds of the specification. -/
theorem foldl_colStepP (s : Sheet) (defaults : Dict) (fileFn : String → Cell → FileRef)
    (project : String) (r : Nat) :
    ∀ (cols : List Nat) (inp cfg : Dict),
      cols.foldl (colStepP s defaults fileFn project r) (inp, cfg) =
        ((cols.filter (fun c => decide (s.cell 4 c = some "project"))).foldl
           (projStep s defaults fileFn project r) inp,
         (cols.filter (fun c => decide (s.cell 4 c = some "config"))).foldl
           (cfgStep s defaults r) cfg) := by
  intro cols
  induction cols with
  | nil => intro inp cfg; simp
  | cons c cs ih =>
    intro inp cfg
    by_cases hproj : s.cell 4 c = some "project"
    · cases hdf : dfind defaults (s.cell 1 c) with
      | some dv =>
        simp [List.foldl_cons, List.filter_cons, hproj, hdf, ih, colStepP, projStep]
      | none =>
        simp [List.foldl_cons, List.filter_cons, hproj, hdf, ih, colStepP, projStep]
    · by_cases hcfg : s.cell 4 c = some "config"
      · simp [List.foldl_cons, List.filter_cons, hproj, hcfg, ih, colStepP, cfgStep]
      · simp [List.foldl_cons, List.filter_cons, hproj, hcfg, ih, colStepP]

/-- The two dictionaries of a row's `gear.run` call are exactly the
specification's role-filtered resolutions. -/
theorem dicts_eq_claim (C : Ctx) (r : Nat) :
    C.dicts r = (claimInputs C.s C.defaults C.fileFn C.project C.cols r,
                 claimConfig C.s C.defaults C.cols r) := by
  rw [Ctx.dicts, foldl_colStepP, claimInputs, claimConfig]

/-! ## Dictionary and list helper lemmas -/

/-- `dfind` over an append: the left dictionary takes precedence. -/
theorem dfind_append (d e : Dict) (k : Cell) :
    dfind (d ++ e) k =
      (match dfind d k with
       | some v => some v
       | none => dfind e k) := by
  induction d with
  | nil => simp [dfind]
  | cons kv d ih =>
    by_cases h : kv.1 = k
    · simp [dfind, h]
    · simp [dfind, h, ih]

/-- Inserting a fresh key appends the binding. -/
theorem dinsert_of_fresh (d : Dict) (k : Cell) (v : Value) (h : dfind d k = none) :
    dinsert d k v = d ++ [(k, v)] := by
  induction d with
  | nil => simp [dinsert]
  | cons kv d ih =>
    rw [dfind] at h
    by_cases hk : kv.1 = k
    · simp [hk] at h
    · rw [dinsert]
      simp only [hk, if_neg, if_false]
      rw [ih (by simpa [hk] using h)]
      simp

/-- Folding fresh, pairwise-distinct insertions over a dictionary appends the
bindings in order. -/
theorem foldl_dinsert_fresh (ps : List (String × String)) :
    ∀ d : Dict, (ps.map Prod.fst).Nodup →
      (∀ k ∈ ps.map Prod.fst, dfind d (some k) = none) →
      ps.foldl (fun d kv => dinsert d (some kv.1) (.str kv.2)) d =
        d ++ ps.map (fun kv => (some kv.1, Value.str kv.2)) := by
  induction ps with
  | nil => intro d _ _; simp
  | cons kv ps ih =>
    intro d hnd hfresh
    rw [List.map_cons, List.nodup_cons] at hnd
    rw [List.foldl_cons,
      dinsert_of_fresh d (some kv.1) (.str kv.2) (hfresh kv.1 (by simp)),
      ih _ hnd.2 ?_]
    · simp
    · intro k hk
      rw [dfind_append, hfresh k (by simp [hk])]
      have hne : kv.1 ≠ k := fun he => hnd.1 (he ▸ hk)
      simp [dfind, hne]

/-- The first components of a zip inherit `Nodup` from the first list. -/
theorem nodup_map_fst_zip (keys : List String) :
    ∀ vals : List String, keys.Nodup → ((keys.zip vals).map Prod.fst).Nodup := by
  induction keys with
  | nil => intro vals _; simp
  | cons k ks ih =>
    intro vals hnd
    cases vals with
    | nil => simp
    | cons v vs =>
      rw [List.nodup_cons] at hnd
      rw [List.zip_cons_cons, List.map_cons, List.nodup_cons]
      constructor
      · intro hmem
        rw [List.mem_map] at hmem
        obtain ⟨⟨a, b⟩, hab, he⟩ := hmem
        have ha : a ∈ ks := (List.of_mem_zip hab).1
        have hak : a = k := he
        exact hnd.1 (hak ▸ ha)
      · exact ih vs hnd.2

/-- A `filterMap` that is `some` everywhere on the list is a `map`. -/
theorem filterMap_eq_map_of {α β : Type} (l : List α) (f : α → Option β) (g : α → β)
    (h : ∀ a ∈ l, f a = some (g a)) : l.filterMap f = l.map g := by
  induction l with
  | nil => simp
  | cons a l ih =>
    rw [List.filterMap_cons, h a (by simp), List.map_cons,
      ih (fun a ha => h a (by simp [ha]))]

/-- Removing an element on which `f` vanishes does not change a `filterMap`. -/
theorem filterMap_filter_ne {α β : Type} [DecidableEq α] (l : List α)
    (f : α → Option β) (a0 : α) (h : f a0 = none) :
    l.filterMap f = (l.filter (fun a => decide (a ≠ a0))).filterMap f := by
  induction l with
  | nil => simp
  | cons a l ih =>
    by_cases ha : a = a0
    · subst ha
      simp [List.filterMap_cons, List.filter_cons, h, ih]
    · simp [List.filterMap_cons, List.filter_cons, ha, ih]

/-! ## Header-only quantities -/

/-- The defaults mapping as the script computes it from the two fixed header
cells (0,8) and (0,10), before the row loop. -/
def headerDefaults (s : Sheet) : Except String Dict :=
  match parseBraceList (s.cell 0 8) true with
  | .error e => .error e
  | .ok keys =>
    match parseBraceList (s.cell 0 10) false with
    | .error e => .error e
    | .ok vals => .ok (buildDefaults keys vals)

/-- The per-column classification used for every data row: for each iterated
column, its name (row 1) and its role (row 4). -/
def colPlan (s : Sheet) : List (Nat × Cell × Cell) :=
  (List.range' 1 (inputNames s).length).map (fun c => (c, s.cell 1 c, s.cell 4 c))

/-- The sheet with the project-label header cell (0,1) replaced. -/
def setProjectLabel (s : Sheet) (v : Cell) : Sheet :=
  { s with cell := fun r c => if r = 0 ∧ c = 1 then v else s.cell r c }

theorem setProjectLabel_cell (s : Sheet) (v : Cell) (r c : Nat) (h : ¬(r = 0 ∧ c = 1)) :
    (setProjectLabel s v).cell r c = s.cell r c := by
  simp [setProjectLabel, h]

theorem setProjectLabel_cell01 (s : Sheet) (v : Cell) :
    (setProjectLabel s v).cell 0 1 = v := by
  simp [setProjectLabel]

theorem setProjectLabel_inputNames (s : Sheet) (v : Cell) :
    inputNames (setProjectLabel s v) = inputNames s := by
  have hc : ∀ c, (setProjectLabel s v).cell 1 c = s.cell 1 c :=
    fun c => setProjectLabel_cell s v 1 c (by simp)
  simp only [inputNames, rowCells, hc]
  rfl

theorem setProjectLabel_sessionPath (s : Sheet) (v : Cell) (r : Nat) :
    sessionPath (setProjectLabel s v) r = sessionPath s r := by
  rw [sessionPath, sessionPath, setProjectLabel_cell s v r 0 (by simp)]

/-! ## Concrete test data

A small well-formed sheet with two data rows (rows 7 and 8): header cells
carry the project label, gear name and the one-key defaults lists; row 1 names
the columns (`analysisSubmissionTag`, a config column `a` whose key is in the
defaults, a project column `fileIn`); row 4 classifies columns 2 and 3. -/

def exSheetA : Sheet where
  nRows := 9
  nCols := 12
  cell := fun r c =>
    match r, c with
    | 0, 1 => some "proj"
    | 0, 4 => some "gearA"
    | 0, 8 => some "\x7ba\x7d"
    | 0, 10 => some "\x7b1\x7d"
    | 1, 0 => some "subject"
    | 1, 1 => some "analysisSubmissionTag"
    | 1, 2 => some "a"
    | 1, 3 => some "fileIn"
    | 4, 2 => some "config"
    | 4, 3 => some "project"
    | 7, 0 => some "s1"
    | 7, 1 => some "lab1"
    | 7, 3 => some "f1.nii"
    | 8, 0 => some "s2"
    | 8, 1 => some "lab2"
    | 8, 3 => some "f2.nii"
    | _, _ => none

/-- Environment where everything succeeds and sessions carry no analyses. -/
def exEnvA : Env where
  lookupGear := fun _ => .ok "g"
  lookupProject := fun _ => .ok "p"
  lookupSession := fun p => .ok ⟨p, []⟩
  getFile := fun pr c => .ok ⟨pr ++ "/" ++ cellStr c⟩
  run := fun _ => .ok "jid"

/-- Environment where every session already carries an analysis labelled
`lab1`. -/
def exEnvB : Env where
  lookupGear := fun _ => .ok "g"
  lookupProject := fun _ => .ok "p"
  lookupSession := fun p => .ok ⟨p, ["lab1"]⟩
  getFile := fun pr c => .ok ⟨pr ++ "/" ++ cellStr c⟩
  run := fun _ => .ok "jid"

/-- Environment where the `gear.run` call raises for session `s1` only. -/
def exEnvC : Env where
  lookupGear := fun _ => .ok "g"
  lookupProject := fun _ => .ok "p"
  lookupSession := fun p => .ok ⟨p, []⟩
  getFile := fun pr c => .ok ⟨pr ++ "/" ++ cellStr c⟩
  run := fun c =>
    if c.destination.sid = "gkaguirrelab/mtSinaiFlicker/s1" then .error "boom"
    else .ok "jid"

/-- Environment where the per-row session lookup itself raises. -/
def exEnvD : Env where
  lookupGear := fun _ => .ok "g"
  lookupProject := fun _ => .ok "p"
  lookupSession := fun _ => .error "boom"
  getFile := fun pr c => .ok ⟨pr ++ "/" ++ cellStr c⟩
  run := fun _ => .ok "jid"

/-- Environment where every `gear.run` call raises. -/
def exEnvE : Env where
  lookupGear := fun _ => .ok "g"
  lookupProject := fun _ => .ok "p"
  lookupSession := fun p => .ok ⟨p, []⟩
  getFile := fun pr c => .ok ⟨pr ++ "/" ++ cellStr c⟩
  run := fun _ => .error "err"

/-- Resolution function matching the `getFile` of the environments above. -/
def exFileFn (pr : String) (c : Cell) : FileRef :=
  ⟨pr ++ "/" ++ cellStr c⟩

/-- Context of a run of `exSheetA` against `exEnvA`. -/
def exCtxA : Ctx where
  s := exSheetA
  env := exEnvA
  gear := "g"
  project := "p"
  defaults := buildDefaults ["a"] ["1"]
  fileFn := exFileFn
  cols := [1, 2, 3]
  tagIdx := 0
  sess := fun r => ⟨sessionPath exSheetA r, []⟩

/-- Context of a run of `exSheetA` against `exEnvB`. -/
def exCtxB : Ctx where
  s := exSheetA
  env := exEnvB
  gear := "g"
  project := "p"
  defaults := buildDefaults ["a"] ["1"]
  fileFn := exFileFn
  cols := [1, 2, 3]
  tagIdx := 0
  sess := fun r => ⟨sessionPath exSheetA r, ["lab1"]⟩

/-- Context of a run of `exSheetA` against `exEnvC`. -/
def exCtxC : Ctx where
  s := exSheetA
  env := exEnvC
  gear := "g"
  project := "p"
  defaults := buildDefaults ["a"] ["1"]
  fileFn := exFileFn
  cols := [1, 2, 3]
  tagIdx := 0
  sess := fun r => ⟨sessionPath exSheetA r, []⟩

/-- Context of a run of `exSheetA` against `exEnvE`. -/
def exCtxE : Ctx where
  s := exSheetA
  env := exEnvE
  gear := "g"
  project := "p"
  defaults := buildDefaults ["a"] ["1"]
  fileFn := exFileFn
  cols := [1, 2, 3]
  tagIdx := 0
  sess := fun r => ⟨sessionPath exSheetA r, []⟩

/-! ## The claims -/

/-- C2 (counterexample): the claim says every string equal case-insensitively
to one of the tokens `true`/`false`/`yes`/`t`/`1` is converted to a boolean —
in particular that `"TRUE"` becomes boolean true.  But the coercion actually
applied by the script guards `str2bool` behind an exact comparison with the
four strings `'true'`, `'false'`, `'True'`, `'False'`, so `"TRUE"` and
`"yes"` pass through unchanged as strings. -/
theorem c2_counterexample :
    coerceValue (Value.str "TRUE") = Value.str "TRUE" ∧
    coerceValue (Value.str "TRUE") ≠ Value.bool true ∧
    coerceValue (Value.str "yes") = Value.str "yes" ∧
    coerceValue (Value.str "t") = Value.str "t" ∧
    coerceValue (Value.str "1") = Value.str "1" := by
  decide

/-- C2 (amended): the coercion applied to default config values, resolved
project inputs and resolved config values converts exactly the four exact
strings `"true"`/`"True"` (to boolean true) and `"false"`/`"False"` (to
boolean false), and leaves every other value — including `"TRUE"`, `"yes"`,
`"t"` and `"1"` — unchanged. -/
theorem c2_coercion_exact :
    (∀ s : String,
      coerceValue (Value.str s) =
        (if s = "true" ∨ s = "True" then Value.bool true
         else if s = "false" ∨ s = "False" then Value.bool false
         else Value.str s)) ∧
    (∀ b : Bool, coerceValue (Value.bool b) = Value.bool b) ∧
    (∀ f : FileRef, coerceValue (Value.file f) = Value.file f) ∧
    coerceValue Value.na = Value.na := by
  refine ⟨?_, fun b => rfl, fun f => rfl, rfl⟩
  intro s
  by_cases h1 : s = "true"
  · subst h1; decide
  · by_cases h2 : s = "True"
    · subst h2; decide
    · by_cases h3 : s = "false"
      · subst h3; decide
      · by_cases h4 : s = "False"
        · subst h4; decide
        · simp [coerceValue, h1, h2, h3, h4]

/-- C6: parsing the two default-config header cells `"{a,b}"` and
`"{1,true}"` yields the keys `[a, b]` zipped positionally with the values
`[1, true]`, and after coercion the defaults mapping binds `a` to the string
`"1"` and `b` to boolean true. -/
theorem c6_default_roundtrip :
    parseBraceList (some "\x7ba,b\x7d") true = .ok ["a", "b"] ∧
    parseBraceList (some "\x7b1,true\x7d") false = .ok ["1", "true"] ∧
    buildDefaults ["a", "b"] ["1", "true"] =
      [(some "a", Value.str "1"), (some "b", Value.bool true)] := by
  exact ⟨rfl, rfl, by decide⟩

/-- C7: the function's result — the recorded API events (lookups, file
resolutions, `gear.run` submissions), the job-id list, the failure list and
the error outcome — is identical for any two values of the
`overwrite_existing` parameter: no live statement of the function reads it. -/
theorem c7_overwrite_existing_no_effect (sheet : Sheet) (env : Env) (o1 o2 : String) :
    submitFmriprep sheet o1 env = submitFmriprep sheet o2 env := rfl

/-- C10: when the parsed key list and value list have different lengths,
`dict(zip(keys, vals))` silently pairs them positionally up to the shorter
length, dropping the surplus keys or values, and no error is raised (the
defaults mapping is still produced). -/
theorem c10_zip_truncates (keys vals : List String)
    (hnd : keys.Nodup) (hlen : keys.length ≠ vals.length) :
    buildDefaults keys vals =
      (keys.zip vals).map (fun kv => (some kv.1, coerceValue (Value.str kv.2))) ∧
    (buildDefaults keys vals).length = min keys.length vals.length := by
  have hmap :
      (keys.zip vals).foldl (fun d kv => dinsert d (some kv.1) (.str kv.2)) [] =
        (keys.zip vals).map (fun kv => (some kv.1, Value.str kv.2)) := by
    have h := foldl_dinsert_fresh (keys.zip vals) []
      (nodup_map_fst_zip keys vals hnd) (fun k _ => rfl)
    simpa using h
  constructor
  · rw [buildDefaults, hmap, List.map_map]
    rfl
  · rw [buildDefaults, hmap, List.map_map, List.length_map, List.length_zip]

/-- Witness for C10 at `keys = [a,b,c]`, `vals = [1,true]`: the surplus key
`c` is dropped and the mapping has length `min 3 2 = 2`. -/
theorem c10_witness :
    (["a", "b", "c"] : List String).Nodup ∧
    (["a", "b", "c"] : List String).length ≠ (["1", "true"] : List String).length ∧
    buildDefaults ["a", "b", "c"] ["1", "true"] =
      [(some "a", Value.str "1"), (some "b", Value.bool true)] ∧
    (buildDefaults ["a", "b", "c"] ["1", "true"]).length = 2 := by
  have h := c10_zip_truncates ["a", "b", "c"] ["1", "true"] (by decide) (by decide)
  exact ⟨by decide, by decide, h.1.trans (by decide), h.2.trans (by decide)⟩

/-- C1: for a well-formed sheet with `nRows - 7` data rows whose computed
labels are all distinct from the labels of the existing analyses on their
sessions, and whose environment raises on no call, the run terminates
normally and issues exactly one `gear.run` call per data row, in row order;
each call's label is the cell of the `analysisSubmissionTag` column of that
row, and its config and input maps resolve every column key to the default
value whenever the key is present in the defaults mapping and to the literal
cell value (project file reference for project-scoped columns) otherwise —
`claimConfig`/`claimInputs`, stated in the claim's own words.  One job id per
row is collected. -/
theorem c1_one_run_per_row (C : Ctx) (keys vals : List String)
    (runId : RunCall → String) (o : String)
    (hk : parseBraceList (C.s.cell 0 8) true = .ok keys)
    (hv : parseBraceList (C.s.cell 0 10) false = .ok vals)
    (hd : C.defaults = buildDefaults keys vals)
    (ht : pyIndex "analysisSubmissionTag" (inputNames C.s) = some C.tagIdx)
    (htagname : C.s.cell 1 (C.tagIdx + 1) = some "analysisSubmissionTag")
    (hcols : C.cols = List.range' 1 (inputNames C.s).length)
    (hg : C.env.lookupGear ("gears/" ++ cellStr (C.s.cell 0 4)) = .ok C.gear)
    (hp : C.env.lookupProject ("gkaguirrelab/" ++ cellStr (C.s.cell 0 1)) = .ok C.project)
    (Hsess : ∀ r, C.env.lookupSession (sessionPath C.s r) = .ok (C.sess r))
    (Hfile : ∀ p c, C.env.getFile p c = .ok (C.fileFn p c))
    (Hguard : ∀ r ∈ List.range' 7 (C.s.nRows - 7), C.dup r = false)
    (Hrun : ∀ c, C.env.run c = .ok (runId c)) :
    (submitFmriprep C.s o C.env).2 = none ∧
    runCalls (submitFmriprep C.s o C.env).1.events =
      (List.range' 7 (C.s.nRows - 7)).map C.call ∧
    (runCalls (submitFmriprep C.s o C.env).1.events).length = C.s.nRows - 7 ∧
    (∀ r, (C.call r).analysis_label = C.s.cell r (C.tagIdx + 1)) ∧
    C.s.cell 1 (C.tagIdx + 1) = some "analysisSubmissionTag" ∧
    (∀ r, (C.call r).config = claimConfig C.s C.defaults C.cols r) ∧
    (∀ r, (C.call r).inputs = claimInputs C.s C.defaults C.fileFn C.project C.cols r) ∧
    (submitFmriprep C.s o C.env).1.analysis_ids =
      (List.range' 7 (C.s.nRows - 7)).map (fun r => runId (C.call r)) := by
  have hmain := submitFmriprep_eq C keys vals o hk hv hd ht hcols hg hp Hsess Hfile
  rw [hmain]
  have hfilter : (List.range' 7 (C.s.nRows - 7)).filter (fun r => !C.dup r) =
      List.range' 7 (C.s.nRows - 7) := by
    rw [List.filter_eq_self]
    intro r hr
    simp [Hguard r hr]
  refine ⟨rfl, ?_, ?_, fun r => rfl, htagname, ?_, ?_, ?_⟩
  · have hhd : runCalls (Event.lookupGear ("gears/" ++ cellStr (C.s.cell 0 4)) ::
        Event.lookupProject ("gkaguirrelab/" ++ cellStr (C.s.cell 0 1)) ::
        (List.range' 7 (C.s.nRows - 7)).flatMap C.rowEvents) =
        runCalls ((List.range' 7 (C.s.nRows - 7)).flatMap C.rowEvents) := rfl
    rw [hhd, runCalls_flatMap, hfilter]
  · have hhd : runCalls (Event.lookupGear ("gears/" ++ cellStr (C.s.cell 0 4)) ::
        Event.lookupProject ("gkaguirrelab/" ++ cellStr (C.s.cell 0 1)) ::
        (List.range' 7 (C.s.nRows - 7)).flatMap C.rowEvents) =
        runCalls ((List.range' 7 (C.s.nRows - 7)).flatMap C.rowEvents) := rfl
    rw [hhd, runCalls_flatMap, hfilter, List.length_map, List.length_range']
  · intro r
    have h := dicts_eq_claim C r
    rw [Ctx.call]
    simp [h]
  · intro r
    have h := dicts_eq_claim C r
    rw [Ctx.call]
    simp [h]
  · refine filterMap_eq_map_of _ _ _ (fun r hr => ?_)
    rw [Ctx.jobId, Hguard r hr]
    simp [Hrun (C.call r)]

/-- Witness for C1: on the concrete two-row sheet `exSheetA` against the
all-succeeding environment `exEnvA`, the run terminates normally and makes
exactly two `gear.run` calls. -/
theorem c1_witness :
    (submitFmriprep exSheetA "never" exEnvA).2 = none ∧
    (runCalls (submitFmriprep exSheetA "never" exEnvA).1.events).length = 2 ∧
    (submitFmriprep exSheetA "never" exEnvA).1.analysis_ids = ["jid", "jid"] := by
  have h := c1_one_run_per_row exCtxA ["a"] ["1"] (fun _ => "jid") "never"
    rfl rfl rfl rfl rfl rfl rfl rfl (fun r => rfl) (fun p c => rfl)
    (by decide) (fun c => rfl)
  exact ⟨h.1, h.2.2.1, h.2.2.2.2.2.2.2.trans (by decide)⟩

/-- C3 (counterexample): the claim says every API exception raised during
per-row processing is caught, recorded as a per-row failure, and the run
continues.  On `exSheetA` (two data rows) with an environment whose per-row
session lookup raises `"boom"`, the run instead aborts on the first row: the
result carries the uncaught error, the failure list stays empty, no `gear.run`
call is made, and the second row's session is never looked up. -/
theorem c3_counterexample :
    (submitFmriprep exSheetA "never" exEnvD).2 = some "boom" ∧
    (submitFmriprep exSheetA "never" exEnvD).1.fails = [] ∧
    runCalls (submitFmriprep exSheetA "never" exEnvD).1.events = [] ∧
    sessionLookups (submitFmriprep exSheetA "never" exEnvD).1.events =
      ["gkaguirrelab/mtSinaiFlicker/s1"] := by
  decide

/-- C3 (amended): only the `gear.run` call sits inside the per-row exception
handler.  Whenever the session lookups and project-file resolutions succeed,
an exception raised by `gear.run` — on any row, with any result pattern — is
caught and recorded as a per-row failure, every data row's session is still
looked up, and the run never aborts; exceptions raised by the per-row session
lookup or file resolution instead propagate and abort the run (see the
counterexample). -/
theorem c3_only_run_exceptions_contained (C : Ctx) (keys vals : List String) (o : String)
    (hk : parseBraceList (C.s.cell 0 8) true = .ok keys)
    (hv : parseBraceList (C.s.cell 0 10) false = .ok vals)
    (hd : C.defaults = buildDefaults keys vals)
    (ht : pyIndex "analysisSubmissionTag" (inputNames C.s) = some C.tagIdx)
    (hcols : C.cols = List.range' 1 (inputNames C.s).length)
    (hg : C.env.lookupGear ("gears/" ++ cellStr (C.s.cell 0 4)) = .ok C.gear)
    (hp : C.env.lookupProject ("gkaguirrelab/" ++ cellStr (C.s.cell 0 1)) = .ok C.project)
    (Hsess : ∀ r, C.env.lookupSession (sessionPath C.s r) = .ok (C.sess r))
    (Hfile : ∀ p c, C.env.getFile p c = .ok (C.fileFn p c)) :
    (submitFmriprep C.s o C.env).2 = none ∧
    (submitFmriprep C.s o C.env).1.fails =
      (List.range' 7 (C.s.nRows - 7)).filterMap C.failure ∧
    sessionLookups (submitFmriprep C.s o C.env).1.events =
      (List.range' 7 (C.s.nRows - 7)).map (sessionPath C.s) := by
  have hmain := submitFmriprep_eq C keys vals o hk hv hd ht hcols hg hp Hsess Hfile
  rw [hmain]
  refine ⟨rfl, rfl, ?_⟩
  have hhd : sessionLookups (Event.lookupGear ("gears/" ++ cellStr (C.s.cell 0 4)) ::
      Event.lookupProject ("gkaguirrelab/" ++ cellStr (C.s.cell 0 1)) ::
      (List.range' 7 (C.s.nRows - 7)).flatMap C.rowEvents) =
      sessionLookups ((List.range' 7 (C.s.nRows - 7)).flatMap C.rowEvents) := rfl
  rw [hhd, sessionLookups_flatMap]

/-- Witness for the amended C3: against `exEnvE`, whose `gear.run` always
raises, the run of `exSheetA` still terminates normally, records both rows'
sessions as failures, and looks up both rows' sessions. -/
theorem c3_witness :
    (submitFmriprep exSheetA "never" exEnvE).2 = none ∧
    (submitFmriprep exSheetA "never" exEnvE).1.fails =
      [⟨"gkaguirrelab/mtSinaiFlicker/s1", []⟩, ⟨"gkaguirrelab/mtSinaiFlicker/s2", []⟩] ∧
    sessionLookups (submitFmriprep exSheetA "never" exEnvE).1.events =
      ["gkaguirrelab/mtSinaiFlicker/s1", "gkaguirrelab/mtSinaiFlicker/s2"] := by
  have h := c3_only_run_exceptions_contained exCtxE ["a"] ["1"] "never"
    rfl rfl rfl rfl rfl rfl rfl (fun r => rfl) (fun p c => rfl)
  exact ⟨h.1, h.2.1.trans (by decide), h.2.2.trans (by decide)⟩

/-- C4: a data row whose destination session already carries an analysis with
the row's computed label contributes no `gear.run` call, and both the job-id
list and the failure list are exactly what they would be without that row. -/
theorem c4_duplicate_label_skips (C : Ctx) (keys vals : List String) (r0 : Nat)
    (o : String)
    (hk : parseBraceList (C.s.cell 0 8) true = .ok keys)
    (hv : parseBraceList (C.s.cell 0 10) false = .ok vals)
    (hd : C.defaults = buildDefaults keys vals)
    (ht : pyIndex "analysisSubmissionTag" (inputNames C.s) = some C.tagIdx)
    (hcols : C.cols = List.range' 1 (inputNames C.s).length)
    (hg : C.env.lookupGear ("gears/" ++ cellStr (C.s.cell 0 4)) = .ok C.gear)
    (hp : C.env.lookupProject ("gkaguirrelab/" ++ cellStr (C.s.cell 0 1)) = .ok C.project)
    (Hsess : ∀ r, C.env.lookupSession (sessionPath C.s r) = .ok (C.sess r))
    (Hfile : ∀ p c, C.env.getFile p c = .ok (C.fileFn p c))
    (hr0 : r0 ∈ List.range' 7 (C.s.nRows - 7))
    (hdup : C.dup r0 = true) :
    runCalls (submitFmriprep C.s o C.env).1.events =
      ((List.range' 7 (C.s.nRows - 7)).filter (fun r => !C.dup r)).map C.call ∧
    runCalls (C.rowEvents r0) = [] ∧
    C.jobId r0 = none ∧
    C.failure r0 = none ∧
    (submitFmriprep C.s o C.env).1.analysis_ids =
      ((List.range' 7 (C.s.nRows - 7)).filter (fun r => decide (r ≠ r0))).filterMap
        C.jobId ∧
    (submitFmriprep C.s o C.env).1.fails =
      ((List.range' 7 (C.s.nRows - 7)).filter (fun r => decide (r ≠ r0))).filterMap
        C.failure := by
  have hmain := submitFmriprep_eq C keys vals o hk hv hd ht hcols hg hp Hsess Hfile
  have hjob : C.jobId r0 = none := by rw [Ctx.jobId, hdup]; simp
  have hfail : C.failure r0 = none := by rw [Ctx.failure, hdup]; simp
  rw [hmain]
  refine ⟨?_, ?_, hjob, hfail, ?_, ?_⟩
  · have hhd : runCalls (Event.lookupGear ("gears/" ++ cellStr (C.s.cell 0 4)) ::
        Event.lookupProject ("gkaguirrelab/" ++ cellStr (C.s.cell 0 1)) ::
        (List.range' 7 (C.s.nRows - 7)).flatMap C.rowEvents) =
        runCalls ((List.range' 7 (C.s.nRows - 7)).flatMap C.rowEvents) := rfl
    rw [hhd, runCalls_flatMap]
  · rw [runCalls_rowEvents, hdup]
    rfl
  · exact filterMap_filter_ne _ C.jobId r0 hjob
  · exact filterMap_filter_ne _ C.failure r0 hfail

/-- Witness for C4: on `exSheetA` against `exEnvB` (every session already
analysed under label `lab1`), row 7 computes label `lab1` and is skipped:
only row 8's call is issued and only its job id is recorded. -/
theorem c4_witness :
    exCtxB.dup 7 = true ∧
    (runCalls (submitFmriprep exSheetA "never" exEnvB).1.events).length = 1 ∧
    (submitFmriprep exSheetA "never" exEnvB).1.analysis_ids = ["jid"] ∧
    (submitFmriprep exSheetA "never" exEnvB).1.fails = [] := by
  have h := c4_duplicate_label_skips exCtxB ["a"] ["1"] 7 "never"
    rfl rfl rfl rfl rfl rfl rfl (fun r => rfl) (fun p c => rfl)
    (by decide) (by decide)
  refine ⟨by decide, ?_, ?_, ?_⟩
  · exact (congrArg List.length h.1).trans (by decide)
  · exact h.2.2.2.2.1.trans (by decide)
  · exact h.2.2.2.2.2.trans (by decide)

/-- C5: when the `gear.run` call of one row raises, that row's session is
appended to the failure list, no job id is recorded for it (the job-id list is
what it would be without the row), and every data row's session — including
all subsequent rows — is still looked up, the run terminating normally. -/
theorem c5_run_failure_is_per_row (C : Ctx) (keys vals : List String) (r0 : Nat)
    (e : String) (o : String)
    (hk : parseBraceList (C.s.cell 0 8) true = .ok keys)
    (hv : parseBraceList (C.s.cell 0 10) false = .ok vals)
    (hd : C.defaults = buildDefaults keys vals)
    (ht : pyIndex "analysisSubmissionTag" (inputNames C.s) = some C.tagIdx)
    (hcols : C.cols = List.range' 1 (inputNames C.s).length)
    (hg : C.env.lookupGear ("gears/" ++ cellStr (C.s.cell 0 4)) = .ok C.gear)
    (hp : C.env.lookupProject ("gkaguirrelab/" ++ cellStr (C.s.cell 0 1)) = .ok C.project)
    (Hsess : ∀ r, C.env.lookupSession (sessionPath C.s r) = .ok (C.sess r))
    (Hfile : ∀ p c, C.env.getFile p c = .ok (C.fileFn p c))
    (hr0 : r0 ∈ List.range' 7 (C.s.nRows - 7))
    (hnd : C.dup r0 = false)
    (herr : C.env.run (C.call r0) = .error e) :
    (submitFmriprep C.s o C.env).2 = none ∧
    C.sess r0 ∈ (submitFmriprep C.s o C.env).1.fails ∧
    C.jobId r0 = none ∧
    (submitFmriprep C.s o C.env).1.analysis_ids =
      ((List.range' 7 (C.s.nRows - 7)).filter (fun r => decide (r ≠ r0))).filterMap
        C.jobId ∧
    sessionLookups (submitFmriprep C.s o C.env).1.events =
      (List.range' 7 (C.s.nRows - 7)).map (sessionPath C.s) := by
  have hmain := submitFmriprep_eq C keys vals o hk hv hd ht hcols hg hp Hsess Hfile
  have hjob : C.jobId r0 = none := by rw [Ctx.jobId, hnd]; simp [herr]
  have hfail : C.failure r0 = some (C.sess r0) := by rw [Ctx.failure, hnd]; simp [herr]
  rw [hmain]
  refine ⟨rfl, ?_, hjob, ?_, ?_⟩
  · exact List.mem_filterMap.mpr ⟨r0, hr0, hfail⟩
  · exact filterMap_filter_ne _ C.jobId r0 hjob
  · have hhd : sessionLookups (Event.lookupGear ("gears/" ++ cellStr (C.s.cell 0 4)) ::
        Event.lookupProject ("gkaguirrelab/" ++ cellStr (C.s.cell 0 1)) ::
        (List.range' 7 (C.s.nRows - 7)).flatMap C.rowEvents) =
        sessionLookups ((List.range' 7 (C.s.nRows - 7)).flatMap C.rowEvents) := rfl
    rw [hhd, sessionLookups_flatMap]

/-- Witness for C5: on `exSheetA` against `exEnvC`, where `gear.run` raises
for session `s1` only, the run ends normally with `s1` in the failure list,
the single job id coming from row 8, and both sessions looked up. -/
theorem c5_witness :
    (submitFmriprep exSheetA "never" exEnvC).2 = none ∧
    (⟨"gkaguirrelab/mtSinaiFlicker/s1", []⟩ : Session) ∈
      (submitFmriprep exSheetA "never" exEnvC).1.fails ∧
    (submitFmriprep exSheetA "never" exEnvC).1.analysis_ids = ["jid"] ∧
    sessionLookups (submitFmriprep exSheetA "never" exEnvC).1.events =
      ["gkaguirrelab/mtSinaiFlicker/s1", "gkaguirrelab/mtSinaiFlicker/s2"] := by
  have h := c5_run_failure_is_per_row exCtxC ["a"] ["1"] 7 "boom" "never"
    rfl rfl rfl rfl rfl rfl rfl (fun r => rfl) (fun p c => rfl)
    (by decide) (by decide) rfl
  refine ⟨h.1, h.2.1, ?_, h.2.2.2.2.trans (by decide)⟩
  exact h.2.2.2.1.trans (by decide)

/-- Member-wise congruence for `List.map`. -/
theorem map_congr_mem {α β : Type} (l : List α) (f g : α → β)
    (h : ∀ a ∈ l, f a = g a) : l.map f = l.map g := by
  induction l with
  | nil => rfl
  | cons a l ih =>
    rw [List.map_cons, List.map_cons, h a (by simp),
      ih (fun a ha => h a (by simp [ha]))]

/-- Member-wise congruence for `List.filter`. -/
theorem filter_congr_mem {α : Type} (l : List α) (p q : α → Bool)
    (h : ∀ a ∈ l, p a = q a) : l.filter p = l.filter q := by
  induction l with
  | nil => rfl
  | cons a l ih =>
    rw [List.filter_cons, List.filter_cons, h a (by simp),
      ih (fun a ha => h a (by simp [ha]))]

/-- C8: the defaults mapping and the per-column classification are functions
of the fixed header cells alone, computed before the row loop, and every data
row is resolved against those same header-derived values: the defaults of the
run are those of `headerDefaults` (cells (0,8)/(0,10) only), the column plan
reads only rows 1 and 4, and every issued call's config and inputs are the
role-filtered resolutions against the one defaults mapping `C.defaults`. -/
theorem c8_header_invariants (C : Ctx) (keys vals : List String) (o : String)
    (hk : parseBraceList (C.s.cell 0 8) true = .ok keys)
    (hv : parseBraceList (C.s.cell 0 10) false = .ok vals)
    (hd : C.defaults = buildDefaults keys vals)
    (ht : pyIndex "analysisSubmissionTag" (inputNames C.s) = some C.tagIdx)
    (hcols : C.cols = List.range' 1 (inputNames C.s).length)
    (hg : C.env.lookupGear ("gears/" ++ cellStr (C.s.cell 0 4)) = .ok C.gear)
    (hp : C.env.lookupProject ("gkaguirrelab/" ++ cellStr (C.s.cell 0 1)) = .ok C.project)
    (Hsess : ∀ r, C.env.lookupSession (sessionPath C.s r) = .ok (C.sess r))
    (Hfile : ∀ p c, C.env.getFile p c = .ok (C.fileFn p c)) :
    headerDefaults C.s = .ok C.defaults ∧
    runCalls (submitFmriprep C.s o C.env).1.events =
      ((List.range' 7 (C.s.nRows - 7)).filter (fun r => !C.dup r)).map
        (fun r =>
          { gear := C.gear, analysis_label := C.s.cell r (C.tagIdx + 1),
            config := claimConfig C.s C.defaults C.cols r,
            inputs := claimInputs C.s C.defaults C.fileFn C.project C.cols r,
            destination := C.sess r }) ∧
    (∀ s' : Sheet, s'.cell 0 8 = C.s.cell 0 8 → s'.cell 0 10 = C.s.cell 0 10 →
      headerDefaults s' = headerDefaults C.s) ∧
    (∀ s' : Sheet, s'.nCols = C.s.nCols →
      (∀ c, s'.cell 1 c = C.s.cell 1 c) → (∀ c, s'.cell 4 c = C.s.cell 4 c) →
      colPlan s' = colPlan C.s) := by
  have hmain := submitFmriprep_eq C keys vals o hk hv hd ht hcols hg hp Hsess Hfile
  refine ⟨?_, ?_, ?_, ?_⟩
  · rw [headerDefaults, hk, hv, hd]
  · rw [hmain]
    have hhd : runCalls (Event.lookupGear ("gears/" ++ cellStr (C.s.cell 0 4)) ::
        Event.lookupProject ("gkaguirrelab/" ++ cellStr (C.s.cell 0 1)) ::
        (List.range' 7 (C.s.nRows - 7)).flatMap C.rowEvents) =
        runCalls ((List.range' 7 (C.s.nRows - 7)).flatMap C.rowEvents) := rfl
    rw [hhd, runCalls_flatMap]
    refine map_congr_mem _ _ _ (fun r _ => ?_)
    simp [Ctx.call, dicts_eq_claim]
  · intro s' h8 h10
    rw [headerDefaults, headerDefaults, h8, h10]
  · intro s' hn h1 h4
    have hin : inputNames s' = inputNames C.s := by
      simp only [inputNames, rowCells, hn, h1]
    have hf : (fun c => (c, s'.cell 1 c, s'.cell 4 c)) =
        (fun c => (c, C.s.cell 1 c, C.s.cell 4 c)) :=
      funext fun c => by rw [h1 c, h4 c]
    rw [colPlan, colPlan, hin, hf]

/-- Witness for C8 on `exSheetA`/`exEnvA`: the header cells yield the
one-binding defaults mapping, and two calls are issued against it. -/
theorem c8_witness :
    headerDefaults exSheetA = .ok (buildDefaults ["a"] ["1"]) ∧
    (runCalls (submitFmriprep exSheetA "never" exEnvA).1.events).length = 2 := by
  have h := c8_header_invariants exCtxA ["a"] ["1"] "never"
    rfl rfl rfl rfl rfl rfl rfl (fun r => rfl) (fun p c => rfl)
  exact ⟨h.1, (congrArg List.length h.2.1).trans (by decide)⟩

/-- C9: sessions are looked up on the fixed path
`gkaguirrelab/mtSinaiFlicker/<row cell 0>` regardless of the project label in
header cell (0,1): replacing that cell changes neither any session path, nor
the sequence of session lookups the run performs, nor the destinations of the
`gear.run` calls — the label only selects the project whose file store
resolves project-scoped inputs. -/
theorem c9_session_path_ignores_project_label (C : Ctx) (keys vals : List String)
    (o : String) (v : Cell) (project' : String)
    (hk : parseBraceList (C.s.cell 0 8) true = .ok keys)
    (hv : parseBraceList (C.s.cell 0 10) false = .ok vals)
    (hd : C.defaults = buildDefaults keys vals)
    (ht : pyIndex "analysisSubmissionTag" (inputNames C.s) = some C.tagIdx)
    (hcols : C.cols = List.range' 1 (inputNames C.s).length)
    (hg : C.env.lookupGear ("gears/" ++ cellStr (C.s.cell 0 4)) = .ok C.gear)
    (hp : C.env.lookupProject ("gkaguirrelab/" ++ cellStr (C.s.cell 0 1)) = .ok C.project)
    (Hsess : ∀ r, C.env.lookupSession (sessionPath C.s r) = .ok (C.sess r))
    (Hfile : ∀ p c, C.env.getFile p c = .ok (C.fileFn p c))
    (hp' : C.env.lookupProject ("gkaguirrelab/" ++ cellStr v) = .ok project') :
    (∀ r, sessionPath C.s r = "gkaguirrelab/mtSinaiFlicker/" ++ cellStr (C.s.cell r 0)) ∧
    (∀ r, sessionPath (setProjectLabel C.s v) r = sessionPath C.s r) ∧
    sessionLookups (submitFmriprep (setProjectLabel C.s v) o C.env).1.events =
      sessionLookups (submitFmriprep C.s o C.env).1.events ∧
    (runCalls (submitFmriprep (setProjectLabel C.s v) o C.env).1.events).map
        (fun c => c.destination) =
      (runCalls (submitFmriprep C.s o C.env).1.events).map (fun c => c.destination) := by
  have hc8 : (setProjectLabel C.s v).cell 0 8 = C.s.cell 0 8 :=
    setProjectLabel_cell C.s v 0 8 (by simp)
  have hc10 : (setProjectLabel C.s v).cell 0 10 = C.s.cell 0 10 :=
    setProjectLabel_cell C.s v 0 10 (by simp)
  have hc4 : (setProjectLabel C.s v).cell 0 4 = C.s.cell 0 4 :=
    setProjectLabel_cell C.s v 0 4 (by simp)
  have hmainA := submitFmriprep_eq C keys vals o hk hv hd ht hcols hg hp Hsess Hfile
  have hmainB := submitFmriprep_eq
    ⟨setProjectLabel C.s v, C.env, C.gear, project', C.defaults, C.fileFn, C.cols,
      C.tagIdx, C.sess⟩ keys vals o
    (hc8.symm ▸ hk) (hc10.symm ▸ hv) hd
    ((setProjectLabel_inputNames C.s v).symm ▸ ht)
    ((setProjectLabel_inputNames C.s v).symm ▸ hcols)
    (hc4.symm ▸ hg)
    ((setProjectLabel_cell01 C.s v).symm ▸ hp')
    (fun r => (setProjectLabel_sessionPath C.s v r).symm ▸ Hsess r)
    Hfile
  refine ⟨fun r => rfl, setProjectLabel_sessionPath C.s v, ?_, ?_⟩
  · rw [hmainA, hmainB]
    have hhdA : sessionLookups (Event.lookupGear ("gears/" ++ cellStr (C.s.cell 0 4)) ::
        Event.lookupProject ("gkaguirrelab/" ++ cellStr (C.s.cell 0 1)) ::
        (List.range' 7 (C.s.nRows - 7)).flatMap C.rowEvents) =
        sessionLookups ((List.range' 7 (C.s.nRows - 7)).flatMap C.rowEvents) := rfl
    have hhdB : sessionLookups
        (Event.lookupGear ("gears/" ++ cellStr ((setProjectLabel C.s v).cell 0 4)) ::
          Event.lookupProject ("gkaguirrelab/" ++ cellStr ((setProjectLabel C.s v).cell 0 1)) ::
          (List.range' 7 ((setProjectLabel C.s v).nRows - 7)).flatMap
            (Ctx.rowEvents ⟨setProjectLabel C.s v, C.env, C.gear, project', C.defaults,
              C.fileFn, C.cols, C.tagIdx, C.sess⟩)) =
        sessionLookups ((List.range' 7 ((setProjectLabel C.s v).nRows - 7)).flatMap
          (Ctx.rowEvents ⟨setProjectLabel C.s v, C.env, C.gear, project', C.defaults,
            C.fileFn, C.cols, C.tagIdx, C.sess⟩)) := rfl
    rw [hhdA, hhdB, sessionLookups_flatMap, sessionLookups_flatMap]
    exact map_congr_mem _ _ _ (fun r _ => setProjectLabel_sessionPath C.s v r)
  · rw [hmainA, hmainB]
    have hhdA : runCalls (Event.lookupGear ("gears/" ++ cellStr (C.s.cell 0 4)) ::
        Event.lookupProject ("gkaguirrelab/" ++ cellStr (C.s.cell 0 1)) ::
        (List.range' 7 (C.s.nRows - 7)).flatMap C.rowEvents) =
        runCalls ((List.range' 7 (C.s.nRows - 7)).flatMap C.rowEvents) := rfl
    have hhdB : runCalls
        (Event.lookupGear ("gears/" ++ cellStr ((setProjectLabel C.s v).cell 0 4)) ::
          Event.lookupProject ("gkaguirrelab/" ++ cellStr ((setProjectLabel C.s v).cell 0 1)) ::
          (List.range' 7 ((setProjectLabel C.s v).nRows - 7)).flatMap
            (Ctx.rowEvents ⟨setProjectLabel C.s v, C.env, C.gear, project', C.defaults,
              C.fileFn, C.cols, C.tagIdx, C.sess⟩)) =
        runCalls ((List.range' 7 ((setProjectLabel C.s v).nRows - 7)).flatMap
          (Ctx.rowEvents ⟨setProjectLabel C.s v, C.env, C.gear, project', C.defaults,
            C.fileFn, C.cols, C.tagIdx, C.sess⟩)) := rfl
    rw [hhdA, hhdB, runCalls_flatMap, runCalls_flatMap, List.map_map, List.map_map]
    have hnr : (setProjectLabel C.s v).nRows = C.s.nRows := rfl
    rw [hnr]
    have hdup : ∀ r ∈ List.range' 7 (C.s.nRows - 7),
        (Ctx.dup ⟨setProjectLabel C.s v, C.env, C.gear, project', C.defaults,
          C.fileFn, C.cols, C.tagIdx, C.sess⟩ r) = C.dup r := by
      intro r hr
      have h7 : 7 ≤ r := (List.mem_range'_1.mp hr).1
      rw [Ctx.dup, Ctx.dup]
      have hc : (setProjectLabel C.s v).cell r (C.tagIdx + 1) =
          C.s.cell r (C.tagIdx + 1) :=
        setProjectLabel_cell C.s v r (C.tagIdx + 1) (by omega)
      rw [hc]
    have hfil := filter_congr_mem (List.range' 7 (C.s.nRows - 7))
      (fun r => !(Ctx.dup ⟨setProjectLabel C.s v, C.env, C.gear, project', C.defaults,
        C.fileFn, C.cols, C.tagIdx, C.sess⟩ r)) (fun r => !C.dup r)
      (fun r hr => by simp only [hdup r hr])
    rw [hfil]
    exact map_congr_mem _ _ _ (fun r _ => rfl)

/-- Witness for C9: on `exSheetA`/`exEnvA`, replacing the project label with
`proj2` leaves the session lookups and run destinations unchanged. -/
theorem c9_witness :
    sessionLookups (submitFmriprep (setProjectLabel exSheetA (some "proj2"))
        "never" exEnvA).1.events =
      ["gkaguirrelab/mtSinaiFlicker/s1", "gkaguirrelab/mtSinaiFlicker/s2"] ∧
    (runCalls (submitFmriprep (setProjectLabel exSheetA (some "proj2"))
        "never" exEnvA).1.events).map (fun c => c.destination) =
      [⟨"gkaguirrelab/mtSinaiFlicker/s1", []⟩, ⟨"gkaguirrelab/mtSinaiFlicker/s2", []⟩] := by
  have h := c9_session_path_ignores_project_label exCtxA ["a"] ["1"] "never"
    (some "proj2") "p"
    rfl rfl rfl rfl rfl rfl rfl (fun r => rfl) (fun p c => rfl) rfl
  exact ⟨h.2.2.1.trans (by decide), h.2.2.2.trans (by decide)⟩

end SubmitFmriprep
